import Mathlib

/-!
Shallow embedding of the deepface face pipeline, translated from
`deepface/commons/functions.py` and `deepface/DeepFace.py`.

Pixel contents of images are opaque to the claims about shapes and control
flow, so images and crops are modelled by their spatial shape; embeddings and
the neural predictors are external collaborators and enter as opaque values
or parameters.
-/

/-- Spatial shape `(height, width)` of a pixel array, as in numpy
`img.shape[0:2]`. -/
structure CropShape where
  h : Nat
  w : Nat
deriving DecidableEq, Repr

/-- Face bounding box in source-image coordinates: the `[x, y, w, h]` list /
`region_obj` dict used in `functions.extract_faces` (the code `int`-casts the
coordinates, hence `Int`). -/
structure Region where
  x : Int
  y : Int
  w : Int
  h : Int
deriving DecidableEq, Repr

/-- One `(cropped_face, region, confidence)` tuple as returned by
`FaceDetector.detect_faces` (an external collaborator): only the crop's
spatial shape is tracked. -/
structure FaceObj where
  crop : CropShape
  region : Region
  confidence : ℚ
deriving DecidableEq, Repr

/-- `functions.extract_faces` lines 130-136: `factor_0 = target[0]/shape[0]`,
`factor_1 = target[1]/shape[1]`, `factor = min(factor_0, factor_1)`, then
`cv2.resize` to `dsize = (int(shape[1]*factor), int(shape[0]*factor))`.
`dsize` is `(width, height)`, so the resized spatial shape is
`(int(shape[0]*factor), int(shape[1]*factor))`; Python `int` truncates and
both products are nonnegative, hence `Rat.floor`/`toNat`. -/
def resizeShape (target : Nat × Nat) (c : CropShape) : CropShape :=
  let factor0 : ℚ := (target.1 : ℚ) / (c.h : ℚ)
  let factor1 : ℚ := (target.2 : ℚ) / (c.w : ℚ)
  let factor : ℚ := min factor0 factor1
  { h := (Rat.floor ((c.h : ℚ) * factor)).toNat,
    w := (Rat.floor ((c.w : ℚ) * factor)).toNat }

/-- `functions.extract_faces` lines 138-156: `diff_i = target_size[i] -
shape[i]` and the `np.pad` widths `(diff_i // 2, diff_i - diff_i // 2)` on
each spatial axis (the grayscale and colour `np.pad` calls use the same
spatial widths). Python `//` is floor division, i.e. `Int.ediv`. -/
def padWidths (target : Nat × Nat) (resized : CropShape) : (Int × Int) × (Int × Int) :=
  let diff0 : Int := (target.1 : Int) - (resized.h : Int)
  let diff1 : Int := (target.2 : Int) - (resized.w : Int)
  ((diff0.ediv 2, diff0 - diff0.ediv 2), (diff1.ediv 2, diff1 - diff1.ediv 2))

/-- Spatial shape after `np.pad` with widths `padWidths target resized`. -/
def paddedShape (target : Nat × Nat) (resized : CropShape) : CropShape :=
  let pw := padWidths target resized
  { h := ((resized.h : Int) + pw.1.1 + pw.1.2).toNat,
    w := ((resized.w : Int) + pw.2.1 + pw.2.2).toNat }

/-- One entry of `extracted_faces` in `functions.extract_faces`: the spatial
shape of `img_pixels` (the batch/channel dimensions and the `/ 255` value
scaling are not tracked), the `region_obj`, and the detector confidence. -/
structure ExtractedFace where
  tensor : CropShape
  region : Region
  confidence : ℚ
deriving DecidableEq, Repr

/-- Body of the `for current_img, current_region, confidence in face_objs`
loop of `functions.extract_faces` (lines 123-176), for `grayscale=False`:
`none` when the `shape[0] > 0 and shape[1] > 0` guard fails, otherwise
resize + pad followed by the line 158-160 double check
`if current_img.shape[0:2] != target_size: cv2.resize(current_img,
target_size)` — in that defensive call `target_size` is the `dsize`
argument, i.e. `(width, height)`, so it would produce the transposed shape. -/
def processFace (target : Nat × Nat) (f : FaceObj) : Option ExtractedFace :=
  if 0 < f.crop.h ∧ 0 < f.crop.w then
    let padded := paddedShape target (resizeShape target f.crop)
    let final : CropShape :=
      if (padded.h, padded.w) ≠ target then { h := target.2, w := target.1 } else padded
    some { tensor := final, region := f.region, confidence := f.confidence }
  else
    none

/-- The whole-image pseudo-face `(img, [0, 0, img.shape[1], img.shape[0]], 0)`
of `functions.extract_faces` lines 107-108 and 120-121. -/
def wholeImageFace (img : CropShape) : FaceObj :=
  { crop := img,
    region := { x := 0, y := 0, w := (img.w : Int), h := (img.h : Int) },
    confidence := 0 }

/-- The two `raise ValueError` sites of `functions.extract_faces`: line 114
(detector returned zero faces while `enforce_detection` is true) and line 178
(all detections were filtered out while `enforce_detection` is true). -/
inductive ExtractError where
  | noFaceDetected
  | degenerateFaces
deriving DecidableEq, Repr

/-- `functions.extract_faces` (lines 91-183) with `grayscale=False`.
`img` is the loaded image's spatial shape, `skipDetect` is
`detector_backend == "skip"`, and `detected` is the output of the external
`FaceDetector.detect_faces` (already eye-aligned when `align` was set, which
is internal to the detector backend). -/
def extract_faces (img : CropShape) (target : Nat × Nat) (skipDetect : Bool)
    (detected : List FaceObj) (enforce : Bool) :
    Except ExtractError (List ExtractedFace) :=
  let faceObjs := if skipDetect then [wholeImageFace img] else detected
  if faceObjs.length = 0 ∧ enforce = true then
    .error .noFaceDetected
  else
    let faceObjs' := if faceObjs.length = 0 ∧ enforce = false then [wholeImageFace img] else faceObjs
    let extracted := faceObjs'.filterMap (processFace target)
    if extracted.length = 0 ∧ enforce = true then
      .error .degenerateFaces
    else
      .ok extracted

lemma ratFloor_eq_intFloor (q : ℚ) : Rat.floor q = ⌊q⌋ := rfl

lemma resizeShape_le (target : Nat × Nat) (c : CropShape) (hh : 0 < c.h) (hw : 0 < c.w) :
    (resizeShape target c).h ≤ target.1 ∧ (resizeShape target c).w ≤ target.2 := by
  have hh' : ((c.h : ℚ)) ≠ 0 := by positivity
  have hw' : ((c.w : ℚ)) ≠ 0 := by positivity
  constructor
  · have hq : (c.h : ℚ) * min ((target.1 : ℚ) / (c.h : ℚ)) ((target.2 : ℚ) / (c.w : ℚ))
        ≤ (target.1 : ℚ) := by
      calc (c.h : ℚ) * min ((target.1 : ℚ) / (c.h : ℚ)) ((target.2 : ℚ) / (c.w : ℚ))
          ≤ (c.h : ℚ) * ((target.1 : ℚ) / (c.h : ℚ)) :=
            mul_le_mul_of_nonneg_left (min_le_left _ _) (by positivity)
        _ = (target.1 : ℚ) := by field_simp
    show (Rat.floor _).toNat ≤ _
    rw [ratFloor_eq_intFloor, Int.toNat_le]
    calc ⌊(c.h : ℚ) * _⌋ ≤ ⌊(target.1 : ℚ)⌋ := Int.floor_le_floor hq
      _ = (target.1 : Int) := Int.floor_natCast _
  · have hq : (c.w : ℚ) * min ((target.1 : ℚ) / (c.h : ℚ)) ((target.2 : ℚ) / (c.w : ℚ))
        ≤ (target.2 : ℚ) := by
      calc (c.w : ℚ) * min ((target.1 : ℚ) / (c.h : ℚ)) ((target.2 : ℚ) / (c.w : ℚ))
          ≤ (c.w : ℚ) * ((target.2 : ℚ) / (c.w : ℚ)) :=
            mul_le_mul_of_nonneg_left (min_le_right _ _) (by positivity)
        _ = (target.2 : ℚ) := by field_simp
    show (Rat.floor _).toNat ≤ _
    rw [ratFloor_eq_intFloor, Int.toNat_le]
    calc ⌊(c.w : ℚ) * _⌋ ≤ ⌊(target.2 : ℚ)⌋ := Int.floor_le_floor hq
      _ = (target.2 : Int) := Int.floor_natCast _

lemma paddedShape_eq_target (target : Nat × Nat) (r : CropShape) :
    paddedShape target r = ⟨target.1, target.2⟩ := by
  simp only [paddedShape, padWidths]
  rw [CropShape.mk.injEq]
  omega

lemma processFace_pos (target : Nat × Nat) (f : FaceObj)
    (hh : 0 < f.crop.h) (hw : 0 < f.crop.w) :
    processFace target f = some ⟨⟨target.1, target.2⟩, f.region, f.confidence⟩ := by
  simp only [processFace, if_pos (And.intro hh hw), paddedShape_eq_target]
  simp

lemma processFace_neg (target : Nat × Nat) (f : FaceObj)
    (h : ¬(0 < f.crop.h ∧ 0 < f.crop.w)) :
    processFace target f = none := by
  simp only [processFace, if_neg h]

lemma processFace_tensor (target : Nat × Nat) (f : FaceObj) (e : ExtractedFace)
    (h : processFace target f = some e) : e.tensor = ⟨target.1, target.2⟩ := by
  by_cases hc : 0 < f.crop.h ∧ 0 < f.crop.w
  · rw [processFace_pos target f hc.1 hc.2] at h
    exact (Option.some.injEq _ _ ▸ h.symm) ▸ rfl
  · rw [processFace_neg target f hc] at h
    exact absurd h (by simp)

/-- Closed form of `extract_faces` on the detection path
(`detector_backend ≠ "skip"`). -/
lemma extract_faces_false_eq (img : CropShape) (target : Nat × Nat)
    (det : List FaceObj) (enf : Bool) :
    extract_faces img target false det enf =
      if det.length = 0 ∧ enf = true then .error .noFaceDetected
      else if ((if det.length = 0 ∧ enf = false then [wholeImageFace img] else det).filterMap
          (processFace target)).length = 0 ∧ enf = true then .error .degenerateFaces
      else .ok ((if det.length = 0 ∧ enf = false then [wholeImageFace img]
          else det).filterMap (processFace target)) := rfl

/-- Closed form of `extract_faces` for `detector_backend == "skip"`. -/
lemma extract_faces_skip_eq (img : CropShape) (target : Nat × Nat)
    (det : List FaceObj) (enf : Bool) :
    extract_faces img target true det enf =
      if ([wholeImageFace img].filterMap (processFace target)).length = 0 ∧ enf = true
      then .error .degenerateFaces
      else .ok ([wholeImageFace img].filterMap (processFace target)) := rfl

lemma extract_ok_tensor (img : CropShape) (target : Nat × Nat) (skip : Bool)
    (det : List FaceObj) (enf : Bool) (res : List ExtractedFace)
    (hok : extract_faces img target skip det enf = .ok res) :
    ∀ e ∈ res, e.tensor = ⟨target.1, target.2⟩ := by
  have hsub : ∃ l : List FaceObj, res = l.filterMap (processFace target) := by
    cases skip
    · rw [extract_faces_false_eq] at hok
      repeat' split at hok
      all_goals
        first
          | exact ⟨_, ((Except.ok.injEq _ _).mp hok).symm⟩
          | exact absurd hok (by simp)
    · rw [extract_faces_skip_eq] at hok
      split at hok
      · exact absurd hok (by simp)
      · exact ⟨_, ((Except.ok.injEq _ _).mp hok).symm⟩
  obtain ⟨l, hl⟩ := hsub
  subst hl
  intro e he
  obtain ⟨f, _, hf⟩ := List.mem_filterMap.mp he
  exact processFace_tensor target f e hf

/-- C2: with exactly one non-degenerate detected face and
`enforce_detection=true`, `extract_faces` returns exactly one extracted face;
and for every face returned by any `extract_faces` call, the tensor's spatial
shape is exactly `target_size` (the line 158-160 defensive re-resize exists
but the padded shape already equals `target_size`). -/
theorem extract_faces_exact_shape (img : CropShape) (target : Nat × Nat) (f : FaceObj)
    (hh : 0 < f.crop.h) (hw : 0 < f.crop.w) :
    extract_faces img target false [f] true =
      .ok [⟨⟨target.1, target.2⟩, f.region, f.confidence⟩] ∧
    ∀ (skip : Bool) (det : List FaceObj) (enf : Bool) (res : List ExtractedFace),
      extract_faces img target skip det enf = .ok res →
      ∀ e ∈ res, e.tensor = ⟨target.1, target.2⟩ := by
  refine ⟨?_, fun skip det enf res hok => extract_ok_tensor img target skip det enf res hok⟩
  rw [extract_faces_false_eq]
  rw [if_neg (by simp)]
  have hi : (if ([f] : List FaceObj).length = 0 ∧ (true : Bool) = false
      then [wholeImageFace img] else [f]) = [f] := if_neg (by simp)
  rw [hi]
  simp [List.filterMap_cons, processFace_pos target f hh hw]

/-- Every returned face of `extract_faces ⟨10,12⟩ (224,224)` on one 5×7 crop
has tensor shape 224×224, witnessing `extract_faces_exact_shape`. -/
theorem extract_faces_exact_shape_witness :
    extract_faces ⟨10, 12⟩ (224, 224) false [⟨⟨5, 7⟩, ⟨1, 2, 3, 4⟩, 0⟩] true =
      .ok [⟨⟨224, 224⟩, ⟨1, 2, 3, 4⟩, 0⟩] :=
  (extract_faces_exact_shape ⟨10, 12⟩ (224, 224) ⟨⟨5, 7⟩, ⟨1, 2, 3, 4⟩, 0⟩
    (by norm_num) (by norm_num)).1

/-- C3: for a non-degenerate crop, the aspect-preserving resize fits inside
`target_size` in both axes, and the pad widths split each difference as
`floor(diff/2)` before and the remainder after, the before-pads being
nonnegative and the padded shape exactly `target_size`. -/
theorem resize_pad_centered (target : Nat × Nat) (c : CropShape)
    (hh : 0 < c.h) (hw : 0 < c.w) :
    (resizeShape target c).h ≤ target.1 ∧ (resizeShape target c).w ≤ target.2 ∧
    (padWidths target (resizeShape target c)).1.1 =
      ((target.1 : Int) - ((resizeShape target c).h : Int)).ediv 2 ∧
    (padWidths target (resizeShape target c)).2.1 =
      ((target.2 : Int) - ((resizeShape target c).w : Int)).ediv 2 ∧
    0 ≤ (padWidths target (resizeShape target c)).1.1 ∧
    0 ≤ (padWidths target (resizeShape target c)).2.1 ∧
    (padWidths target (resizeShape target c)).1.1 +
      (padWidths target (resizeShape target c)).1.2 =
      (target.1 : Int) - ((resizeShape target c).h : Int) ∧
    (padWidths target (resizeShape target c)).2.1 +
      (padWidths target (resizeShape target c)).2.2 =
      (target.2 : Int) - ((resizeShape target c).w : Int) ∧
    paddedShape target (resizeShape target c) = ⟨target.1, target.2⟩ := by
  obtain ⟨h1, h2⟩ := resizeShape_le target c hh hw
  refine ⟨h1, h2, rfl, rfl, ?_, ?_, ?_, ?_, paddedShape_eq_target target _⟩
  · exact Int.ediv_nonneg (by omega) (by norm_num)
  · exact Int.ediv_nonneg (by omega) (by norm_num)
  · simp only [padWidths]; omega
  · simp only [padWidths]; omega

/-- The 5×7 crop against a 224×224 target is padded back to exactly 224×224,
witnessing `resize_pad_centered`. -/
theorem resize_pad_centered_witness :
    paddedShape (224, 224) (resizeShape (224, 224) ⟨5, 7⟩) = ⟨224, 224⟩ :=
  (resize_pad_centered (224, 224) ⟨5, 7⟩ (by norm_num)
    (by norm_num)).2.2.2.2.2.2.2.2

/-- C4: with the detection path (`detector_backend ≠ "skip"`), `extract_faces`
fails if and only if `enforce_detection` is true and either the detector
returned zero faces or every detection had a degenerate crop; and with
`enforce_detection=false` and zero detections it synthesizes the whole-image
pseudo-face with confidence 0 instead of raising. -/
theorem extract_faces_error_policy (img : CropShape) (target : Nat × Nat)
    (det : List FaceObj) (enf : Bool) :
    ((∃ err, extract_faces img target false det enf = .error err) ↔
      enf = true ∧ (det = [] ∨ ∀ f ∈ det, f.crop.h = 0 ∨ f.crop.w = 0)) ∧
    (det = [] → enf = false → 0 < img.h → 0 < img.w →
      extract_faces img target false det enf =
        .ok [⟨⟨target.1, target.2⟩, ⟨0, 0, (img.w : Int), (img.h : Int)⟩, 0⟩]) := by
  constructor
  · rw [extract_faces_false_eq]
    cases enf
    · -- enforce_detection = false: both raise sites are unreachable
      rw [if_neg (by simp), if_neg (by simp)]
      simp
    · -- enforce_detection = true
      by_cases hd : det = []
      · subst hd
        rw [if_pos (by simp)]
        simp
      · rw [if_neg (by simp [List.length_eq_zero, hd])]
        have hi : (if det.length = 0 ∧ (true : Bool) = false
            then [wholeImageFace img] else det) = det := if_neg (by simp)
        rw [hi]
        by_cases hf : (det.filterMap (processFace target)).length = 0
        · rw [if_pos ⟨hf, rfl⟩]
          constructor
          · intro _
            refine ⟨rfl, Or.inr fun f hfm => ?_⟩
            have hnone : processFace target f = none :=
              List.filterMap_eq_nil_iff.mp (List.length_eq_zero.mp hf) f hfm
            by_contra hc
            push_neg at hc
            rw [processFace_pos target f (by omega) (by omega)] at hnone
            exact absurd hnone (by simp)
          · intro _
            exact ⟨.degenerateFaces, rfl⟩
        · rw [if_neg (by simp [hf])]
          constructor
          · intro ⟨err, herr⟩
            exact absurd herr (by simp)
          · rintro ⟨-, h | h⟩
            · exact absurd h hd
            · exfalso
              apply hf
              rw [List.length_eq_zero, List.filterMap_eq_nil_iff]
              intro f hfm
              exact processFace_neg target f (by rcases h f hfm with h' | h' <;> omega)
  · intro hdet henf himgh himgw
    subst hdet henf
    rw [extract_faces_false_eq]
    rw [if_neg (by simp)]
    have hi : (if ([] : List FaceObj).length = 0 ∧ (false : Bool) = false
        then [wholeImageFace img] else []) = [wholeImageFace img] := if_pos (by simp)
    rw [hi]
    rw [show List.filterMap (processFace target) [wholeImageFace img] =
        [⟨⟨target.1, target.2⟩, (wholeImageFace img).region, (wholeImageFace img).confidence⟩]
      from by simp [List.filterMap_cons, processFace_pos target (wholeImageFace img) himgh himgw]]
    simp [wholeImageFace]

/-- On an empty detection list with `enforce_detection=false`, a 10×12 image
yields the whole-image pseudo-face, witnessing `extract_faces_error_policy`. -/
theorem extract_faces_error_policy_witness :
    extract_faces ⟨10, 12⟩ (224, 224) false [] false =
      .ok [⟨⟨224, 224⟩, ⟨0, 0, 12, 10⟩, 0⟩] :=
  (extract_faces_error_policy ⟨10, 12⟩ (224, 224) [] false).2 rfl rfl
    (by norm_num) (by norm_num)

/-! ### VerificationService: `DeepFace.verify` (DeepFace.py lines 71-186)

The recognition model and the `deepface.commons.distance` module
(`findCosineDistance`, `findEuclideanDistance`, `l2_normalize`,
`findThreshold`) live outside the two source files, so embeddings enter as
opaque values attached to each extracted face and the metric dispatch plus
the `(model, metric)` threshold lookup enter as an abstract distance function
and a threshold value. -/

/-- The nested loop of `verify` lines 132-163: for every face of image 1 and,
inside, every face of image 2, one `(distance, (img1_region, img2_region))`
entry, in loop order. -/
def crossPairs {Emb : Type} (dist : Emb → Emb → ℚ) (objs1 objs2 : List (Emb × Region)) :
    List (ℚ × (Region × Region)) :=
  objs1.flatMap fun o1 => objs2.map fun o2 => (dist o1.1 o2.1, (o1.2, o2.2))

/-- Python `min(l)` for a nonempty list: a left fold of binary `min` over the
tail (the `[]` case is the `ValueError`, handled at the call site). -/
def listMinD : List ℚ → ℚ
  | [] => 0
  | a :: rest => rest.foldl min a

/-- `np.argmin(l)`: index of the first occurrence of the minimum. -/
def argminIdx : List ℚ → Nat
  | [] => 0
  | [_] => 0
  | a :: b :: rest => if a ≤ listMinD (b :: rest) then 0 else argminIdx (b :: rest) + 1

/-- `min(distances)` on an empty sequence raises `ValueError`
(`verify` line 167). -/
inductive VerifyError where
  | emptyDistances
deriving DecidableEq, Repr

/-- The `resp_obj` dict of `verify` lines 172-184 (without the wall-clock
`time` and the echoed configuration strings). -/
structure VerifyResult where
  verified : Bool
  distance : ℚ
  threshold : ℚ
  facialAreas : Region × Region
deriving DecidableEq, Repr

/-- `DeepFace.verify` lines 129-186, over the two images' already-extracted
face lists (`img1_objs`/`img2_objs`), each face being its embedding from
`represent` plus its region: build the cross-product `distances` and
`regions` lists, then `distance = min(distances)`,
`facial_areas = regions[np.argmin(distances)]`, and
`verified = distance <= threshold`. -/
def verify {Emb : Type} (dist : Emb → Emb → ℚ) (threshold : ℚ)
    (objs1 objs2 : List (Emb × Region)) : Except VerifyError VerifyResult :=
  let pairs := crossPairs dist objs1 objs2
  let distances := pairs.map Prod.fst
  let regions := pairs.map Prod.snd
  if distances.length = 0 then
    .error .emptyDistances
  else
    let d := listMinD distances
    let areas := regions.getD (argminIdx distances) (⟨0, 0, 0, 0⟩, ⟨0, 0, 0, 0⟩)
    .ok { verified := decide (d ≤ threshold), distance := d, threshold := threshold,
          facialAreas := areas }

lemma foldl_min_le_init (ds : List ℚ) (a : ℚ) : ds.foldl min a ≤ a := by
  induction ds generalizing a with
  | nil => exact le_refl a
  | cons b t ih => exact le_trans (ih (min a b)) (min_le_left a b)

lemma foldl_min_le_mem (ds : List ℚ) (a x : ℚ) (hx : x ∈ ds) : ds.foldl min a ≤ x := by
  induction ds generalizing a with
  | nil => exact absurd hx (by simp)
  | cons b t ih =>
    rcases List.mem_cons.mp hx with h | h
    · subst h
      exact le_trans (foldl_min_le_init t (min a x)) (min_le_right a x)
    · exact ih (min a b) h

lemma foldl_min_mem (ds : List ℚ) (a : ℚ) : ds.foldl min a = a ∨ ds.foldl min a ∈ ds := by
  induction ds generalizing a with
  | nil => exact Or.inl rfl
  | cons b t ih =>
    rcases ih (min a b) with h | h
    · rcases min_choice a b with hm | hm
      · exact Or.inl (by rw [List.foldl_cons, h, hm])
      · exact Or.inr (by rw [List.foldl_cons, h, hm]; exact List.mem_cons_self b t)
    · exact Or.inr (List.mem_cons_of_mem b h)

lemma listMinD_le (l : List ℚ) (x : ℚ) (hx : x ∈ l) : listMinD l ≤ x := by
  cases l with
  | nil => exact absurd hx (by simp)
  | cons a t =>
    rcases List.mem_cons.mp hx with h | h
    · subst h; exact foldl_min_le_init t x
    · exact foldl_min_le_mem t a x h

lemma foldl_min_min (t : List ℚ) (a b : ℚ) :
    t.foldl min (min a b) = min a (t.foldl min b) := by
  induction t generalizing a b with
  | nil => rfl
  | cons c t' ih =>
    rw [List.foldl_cons, List.foldl_cons, min_assoc]
    exact ih a (min b c)

lemma listMinD_cons (a : ℚ) (l : List ℚ) (h : l ≠ []) :
    listMinD (a :: l) = min a (listMinD l) := by
  cases l with
  | nil => exact absurd rfl h
  | cons b t =>
    show (b :: t).foldl min a = min a (t.foldl min b)
    rw [List.foldl_cons]
    exact foldl_min_min t a b

lemma argminIdx_lt (l : List ℚ) (h : l ≠ []) : argminIdx l < l.length := by
  induction l with
  | nil => exact absurd rfl h
  | cons a t ih =>
    cases t with
    | nil => simp [argminIdx]
    | cons b t' =>
      show (if a ≤ listMinD (b :: t') then 0 else argminIdx (b :: t') + 1) < _
      split
      · simp
      · have := ih (by simp)
        simpa using Nat.succ_lt_succ this

lemma getD_argminIdx (l : List ℚ) (h : l ≠ []) :
    l.getD (argminIdx l) 0 = listMinD l := by
  induction l with
  | nil => exact absurd rfl h
  | cons a t ih =>
    cases t with
    | nil => rfl
    | cons b t' =>
      rw [listMinD_cons a (b :: t') (by simp)]
      show (a :: b :: t').getD (if a ≤ listMinD (b :: t') then 0 else argminIdx (b :: t') + 1) 0 = _
      split
      · rename_i hle
        simp [min_eq_left hle]
      · rename_i hgt
        have hmin : min a (listMinD (b :: t')) = listMinD (b :: t') :=
          min_eq_right (le_of_not_le hgt)
        rw [hmin]
        show (b :: t').getD (argminIdx (b :: t')) 0 = _
        exact ih (by simp)

lemma crossPairs_mem {Emb : Type} (dist : Emb → Emb → ℚ) (objs1 objs2 : List (Emb × Region))
    (o1 : Emb × Region) (ho1 : o1 ∈ objs1) (o2 : Emb × Region) (ho2 : o2 ∈ objs2) :
    (dist o1.1 o2.1, (o1.2, o2.2)) ∈ crossPairs dist objs1 objs2 :=
  List.mem_flatMap.mpr ⟨o1, ho1, List.mem_map.mpr ⟨o2, ho2, rfl⟩⟩

lemma crossPairs_mem_inv {Emb : Type} (dist : Emb → Emb → ℚ) (objs1 objs2 : List (Emb × Region))
    (p : ℚ × (Region × Region)) (hp : p ∈ crossPairs dist objs1 objs2) :
    ∃ o1 ∈ objs1, ∃ o2 ∈ objs2, p = (dist o1.1 o2.1, (o1.2, o2.2)) := by
  obtain ⟨o1, ho1, hmap⟩ := List.mem_flatMap.mp hp
  obtain ⟨o2, ho2, heq⟩ := List.mem_map.mp hmap
  exact ⟨o1, ho1, o2, ho2, heq.symm⟩

/-- C1: with at least one face extracted from each image, `verify` succeeds;
every (face-of-A, face-of-B) pair contributes its distance to the computed
cross product, the reported distance is a lower bound of all of them and is
attained by the pair whose bounding boxes are reported as `facial_areas`, and
`verified` is true exactly when the reported distance is at most the
threshold. -/
theorem verify_min_cross {Emb : Type} (dist : Emb → Emb → ℚ) (th : ℚ)
    (objs1 objs2 : List (Emb × Region)) (h1 : objs1 ≠ []) (h2 : objs2 ≠ []) :
    ∃ r, verify dist th objs1 objs2 = .ok r ∧
      (∀ o1 ∈ objs1, ∀ o2 ∈ objs2,
        (dist o1.1 o2.1, (o1.2, o2.2)) ∈ crossPairs dist objs1 objs2) ∧
      (∀ o1 ∈ objs1, ∀ o2 ∈ objs2, r.distance ≤ dist o1.1 o2.1) ∧
      (∃ o1 ∈ objs1, ∃ o2 ∈ objs2,
        r.distance = dist o1.1 o2.1 ∧ r.facialAreas = (o1.2, o2.2)) ∧
      (r.verified = true ↔ r.distance ≤ th) ∧
      r.threshold = th := by
  have hpair : crossPairs dist objs1 objs2 ≠ [] := by
    obtain ⟨o1, ho1⟩ := List.exists_mem_of_ne_nil objs1 h1
    obtain ⟨o2, ho2⟩ := List.exists_mem_of_ne_nil objs2 h2
    exact List.ne_nil_of_mem (crossPairs_mem dist objs1 objs2 o1 ho1 o2 ho2)
  have hdist : (crossPairs dist objs1 objs2).map Prod.fst ≠ [] := by
    simpa using hpair
  have hlen : ¬((crossPairs dist objs1 objs2).map Prod.fst).length = 0 := by
    simpa [List.length_eq_zero] using hdist
  unfold verify
  rw [if_neg hlen]
  refine ⟨_, rfl, fun o1 ho1 o2 ho2 => crossPairs_mem dist objs1 objs2 o1 ho1 o2 ho2,
    ?_, ?_, by simp, rfl⟩
  · intro o1 ho1 o2 ho2
    exact listMinD_le _ _ (List.mem_map.mpr
      ⟨_, crossPairs_mem dist objs1 objs2 o1 ho1 o2 ho2, rfl⟩)
  · have hidx : argminIdx ((crossPairs dist objs1 objs2).map Prod.fst) <
        ((crossPairs dist objs1 objs2).map Prod.fst).length :=
      argminIdx_lt _ hdist
    have hidx' : argminIdx ((crossPairs dist objs1 objs2).map Prod.fst) <
        (crossPairs dist objs1 objs2).length := by simpa using hidx
    set i := argminIdx ((crossPairs dist objs1 objs2).map Prod.fst) with hi
    obtain ⟨o1, ho1, o2, ho2, heq⟩ := crossPairs_mem_inv dist objs1 objs2
      ((crossPairs dist objs1 objs2).get ⟨i, hidx'⟩)
      (List.get_mem _ _ _)
    refine ⟨o1, ho1, o2, ho2, ?_, ?_⟩
    · have hd : ((crossPairs dist objs1 objs2).map Prod.fst).getD i 0 =
          listMinD ((crossPairs dist objs1 objs2).map Prod.fst) :=
        getD_argminIdx _ hdist
      rw [List.getD_eq_getElem _ _ hidx] at hd
      rw [← hd]
      simp only [List.getElem_map]
      rw [show (crossPairs dist objs1 objs2)[i] =
        (crossPairs dist objs1 objs2).get ⟨i, hidx'⟩ from rfl, heq]
    · have hreg : ((crossPairs dist objs1 objs2).map Prod.snd).getD i
          (⟨0, 0, 0, 0⟩, ⟨0, 0, 0, 0⟩) =
          ((crossPairs dist objs1 objs2).get ⟨i, hidx'⟩).2 := by
        rw [List.getD_eq_getElem _ _ (by simpa using hidx)]
        simp only [List.getElem_map]
        rfl
      show ((crossPairs dist objs1 objs2).map Prod.snd).getD i _ = _
      rw [hreg, heq]

/-- `verify` at one face per image, witnessing `verify_min_cross`. -/
theorem verify_min_cross_witness :
    ∃ r, verify (fun a b : ℚ => a + b) 1 [((0 : ℚ), ⟨0, 0, 0, 0⟩)]
        [((2 : ℚ), ⟨1, 1, 1, 1⟩)] = .ok r ∧
      (r.verified = true ↔ r.distance ≤ 1) ∧ r.threshold = 1 := by
  obtain ⟨r, hok, -, -, -, hv, ht⟩ := verify_min_cross (fun a b : ℚ => a + b) 1
    [((0 : ℚ), ⟨0, 0, 0, 0⟩)] [((2 : ℚ), ⟨1, 1, 1, 1⟩)] (by simp) (by simp)
  exact ⟨r, hok, hv, ht⟩

/-! ### The verify pipeline over extraction results (C10) -/

/-- Errors surfacing from a whole `verify` call: an extraction `ValueError`
from either image, or the `ValueError` of `min([])`. -/
inductive PipeError where
  | extraction (firstImage : Bool) (e : ExtractError)
  | comparison (e : VerifyError)
deriving DecidableEq, Repr

/-- `verify` calls `represent` per face with `detector_backend="skip"`;
each extracted face is turned into its (opaque) embedding plus its region. -/
def toVerifyObjs {Emb : Type} (embed : ExtractedFace → Emb)
    (faces : List ExtractedFace) : List (Emb × Region) :=
  faces.map fun f => (embed f, f.region)

/-- `DeepFace.verify` end to end over the two extraction results: a raised
extraction error propagates, otherwise the cross-product comparison runs. -/
def verifyPipeline {Emb : Type} (dist : Emb → Emb → ℚ) (th : ℚ)
    (embed : ExtractedFace → Emb)
    (r1 r2 : Except ExtractError (List ExtractedFace)) : Except PipeError VerifyResult :=
  match r1 with
  | .error e => .error (.extraction true e)
  | .ok f1 =>
    match r2 with
    | .error e => .error (.extraction false e)
    | .ok f2 =>
      (verify dist th (toVerifyObjs embed f1) (toVerifyObjs embed f2)).mapError .comparison

/-- C10: when `enforce_detection=false` and the detector returns only faces
with a degenerate crop, `extract_faces` returns the empty list (no
whole-image fallback, since the detector output was nonempty), and `verify`
on such an extraction result fails at `min(distances)` on the empty cross
product. -/
theorem verify_empty_extraction_partial {Emb : Type} (dist : Emb → Emb → ℚ) (th : ℚ)
    (embed : ExtractedFace → Emb) (img : CropShape) (target : Nat × Nat)
    (det : List FaceObj) (hne : det ≠ [])
    (hdeg : ∀ f ∈ det, f.crop.h = 0 ∨ f.crop.w = 0) :
    extract_faces img target false det false = .ok [] ∧
    ∀ f2 : List ExtractedFace,
      verifyPipeline dist th embed (extract_faces img target false det false) (.ok f2) =
        .error (.comparison .emptyDistances) := by
  have hfm : det.filterMap (processFace target) = [] := by
    rw [List.filterMap_eq_nil_iff]
    intro f hf
    exact processFace_neg target f (by rcases hdeg f hf with h | h <;> omega)
  have hok : extract_faces img target false det false = .ok [] := by
    rw [extract_faces_false_eq]
    rw [if_neg (by simp)]
    have hi : (if det.length = 0 ∧ (false : Bool) = false
        then [wholeImageFace img] else det) = det :=
      if_neg (by simp [List.length_eq_zero, hne])
    rw [hi, hfm]
    simp
  refine ⟨hok, fun f2 => ?_⟩
  rw [hok]
  show (verify dist th (toVerifyObjs embed []) (toVerifyObjs embed f2)).mapError _ = _
  rfl

/-- A single degenerate (zero-height) detection with
`enforce_detection=false` makes the whole `verify` call fail, witnessing
`verify_empty_extraction_partial`. -/
theorem verify_empty_extraction_partial_witness :
    extract_faces ⟨10, 12⟩ (224, 224) false [⟨⟨0, 5⟩, ⟨1, 2, 3, 4⟩, 0⟩] false = .ok [] ∧
    verifyPipeline (fun a b : ℚ => a + b) 1 (fun _ => (0 : ℚ))
      (extract_faces ⟨10, 12⟩ (224, 224) false [⟨⟨0, 5⟩, ⟨1, 2, 3, 4⟩, 0⟩] false)
      (.ok []) = .error (.comparison .emptyDistances) := by
  obtain ⟨h1, h2⟩ := verify_empty_extraction_partial (fun a b : ℚ => a + b) 1
    (fun _ => (0 : ℚ)) ⟨10, 12⟩ (224, 224) [⟨⟨0, 5⟩, ⟨1, 2, 3, 4⟩, 0⟩]
    (by simp) (by intro f hf; simp at hf; subst hf; left; rfl)
  exact ⟨h1, h2 []⟩

/-! ### GalleryIndex: `DeepFace.find` (DeepFace.py lines 327-495)

File names and paths are modelled as `List Char`; the embeddings in the
representations store are opaque values. -/

/-- Python `list.startswith`-style check on char lists (used to build
substring containment). -/
def leadsWith : List Char → List Char → Bool
  | [], _ => true
  | _ :: _, [] => false
  | a :: ps, b :: ss => a = b && leadsWith ps ss

/-- Python's `pat in s` substring containment on char lists. -/
def hasSub (pat : List Char) : List Char → Bool
  | [] => leadsWith pat []
  | c :: rest => leadsWith pat (c :: rest) || hasSub pat rest

/-- `find` line 380: `('.jpg' in file.lower()) or ('.jpeg' in file.lower())
or ('.png' in file.lower())` — substring containment on the lower-cased file
name, not an extension check. -/
def selectsFile (file : List Char) : Bool :=
  hasSub ".jpg".toList (file.map Char.toLower) ||
  hasSub ".jpeg".toList (file.map Char.toLower) ||
  hasSub ".png".toList (file.map Char.toLower)

/-- Stated from the spec's words for comparison with `selectsFile`: a file
whose *extension* is `.jpg`, `.jpeg` or `.png`, case-insensitive — i.e. whose
lower-cased name ends with one of them. -/
def specExtensionSelects (file : List Char) : Bool :=
  ".jpg".toList.isSuffixOf (file.map Char.toLower) ||
  ".jpeg".toList.isSuffixOf (file.map Char.toLower) ||
  ".png".toList.isSuffixOf (file.map Char.toLower)

/-- One file of the gallery directory walk (`os.walk` in `find` lines
378-382): the directory it sits in (`r`), its name (`file`), and the
embeddings produced for its detected faces (the `extract_faces` +
`represent` results of lines 397-414, opaque here). -/
structure GalleryFile (Emb : Type) where
  root : List Char
  name : List Char
  faces : List Emb

/-- `exact_path = r + "/" + file` (`find` line 381). -/
def identityPath {Emb : Type} (f : GalleryFile Emb) : List Char :=
  f.root ++ '/' :: f.name

/-- `raise ValueError("There is no image in ...")` (`find` lines 384-385). -/
inductive FindError where
  | emptyGallery
deriving DecidableEq, Repr

/-- The from-scratch branch of `find` (lines 375-419): select gallery files,
fail when none, else one `[employee, representation]` record per detected
face per file, in walk order. -/
def buildRepresentations {Emb : Type} (files : List (GalleryFile Emb)) :
    Except FindError (List (List Char × Emb)) :=
  let employees := files.filter fun f => selectsFile f.name
  if employees.length = 0 then
    .error .emptyGallery
  else
    .ok (employees.flatMap fun f => f.faces.map fun e => (identityPath f, e))

/-- `file_name = ("representations_%s.pkl" % model_name).replace("-", "_")
.lower()` (`find` lines 361-362): replacing the single-character pattern
`"-"` is a character map, as is `str.lower` on ASCII names. -/
def hyphenToUnderscore (c : Char) : Char := if c = '-' then '_' else c

def cacheFileName (modelName : List Char) : List Char :=
  (("representations_".toList ++ modelName ++ ".pkl".toList).map hyphenToUnderscore).map
    Char.toLower

/-- The cache file is opened at `db_path + "/" + file_name` (lines 364-369,
423). -/
def cachePath (dbPath modelName : List Char) : List Char :=
  dbPath ++ '/' :: cacheFileName modelName

/-- The state `find`'s store-building phase reads: whether
`path.exists(db_path + "/" + file_name)`, the pickled contents if so, and
the gallery directory's files. -/
structure GalleryState (Emb : Type) where
  cacheExists : Bool
  cacheContents : List (List Char × Emb)
  files : List (GalleryFile Emb)

/-- `find` lines 364-428: load the pickle verbatim when the cache file
exists (no re-scan of the gallery directory), else build from scratch. -/
def buildStore {Emb : Type} (st : GalleryState Emb) :
    Except FindError (List (List Char × Emb)) :=
  if st.cacheExists then .ok st.cacheContents else buildRepresentations st.files

/-- C5: the cache file sits next to `db_path` under a name that is exactly
`representations_` + the model name with hyphens mapped to underscores and
lower-cased + `.pkl`; and whenever the cache file exists, the store is its
contents verbatim, independent of what the gallery directory holds. -/
theorem find_cache_policy {Emb : Type} (dbPath modelName : List Char)
    (st : GalleryState Emb) :
    cachePath dbPath modelName =
      dbPath ++ '/' :: ("representations_".toList ++
        (modelName.map hyphenToUnderscore).map Char.toLower ++ ".pkl".toList) ∧
    (st.cacheExists = true →
      buildStore st = .ok st.cacheContents ∧
      ∀ files' : List (GalleryFile Emb),
        buildStore { st with files := files' } = .ok st.cacheContents) := by
  constructor
  · unfold cachePath cacheFileName
    rw [List.map_append, List.map_append, List.map_append, List.map_append]
    rfl
  · intro hcache
    constructor
    · unfold buildStore
      rw [hcache]
      simp
    · intro files'
      unfold buildStore
      rw [show ({ st with files := files' } : GalleryState Emb).cacheExists = true from hcache]
      simp

/-- `cachePath` on model name `VGG-Face` and a cache hit, witnessing
`find_cache_policy`. -/
theorem find_cache_policy_witness :
    cachePath "db".toList "VGG-Face".toList =
      "db".toList ++ '/' :: ("representations_".toList ++
        ("VGG-Face".toList.map hyphenToUnderscore).map Char.toLower ++ ".pkl".toList) ∧
    buildStore (⟨true, [("x".toList, (0 : ℚ))], []⟩ : GalleryState ℚ) =
      .ok [("x".toList, (0 : ℚ))] := by
  have h := find_cache_policy "db".toList "VGG-Face".toList
    (⟨true, [("x".toList, (0 : ℚ))], []⟩ : GalleryState ℚ)
  exact ⟨h.1, (h.2 rfl).1⟩

/-- The code's selection is substring containment, so `photo.jpg.txt` — whose
extension is `.txt` — is selected: the claim's "exactly the files whose
extension is .jpg/.jpeg/.png" is false of the code. -/
theorem find_filter_not_extension_counterexample :
    selectsFile "photo.jpg.txt".toList = true ∧
    specExtensionSelects "photo.jpg.txt".toList = false := by
  constructor
  · rfl
  · rfl

/-- C6 (amended): when no cache file exists, build selects exactly the files
whose lower-cased name *contains* `.jpg`, `.jpeg` or `.png` as a substring,
fails with the empty-gallery error iff that selection is empty, and
otherwise emits one record per detected face per selected file, the identity
path repeated for multi-face files. -/
theorem find_build_records {Emb : Type} (files : List (GalleryFile Emb)) :
    (buildRepresentations files = .error .emptyGallery ↔
      files.filter (fun f => selectsFile f.name) = []) ∧
    ∀ reps, buildRepresentations files = .ok reps →
      reps.length =
        ((files.filter (fun f => selectsFile f.name)).map fun f => f.faces.length).sum ∧
      ∀ r ∈ reps, ∃ f ∈ files, selectsFile f.name = true ∧
        r.1 = identityPath f ∧ r.2 ∈ f.faces := by
  constructor
  · unfold buildRepresentations
    by_cases h : (files.filter fun f => selectsFile f.name).length = 0
    · rw [if_pos h]
      simp [List.length_eq_zero.mp h]
    · rw [if_neg h]
      constructor
      · intro hcontra
        exact absurd hcontra (by simp)
      · intro hnil
        exact absurd (by rw [hnil]; rfl) h
  · intro reps hok
    simp only [buildRepresentations] at hok
    split at hok
    · exact absurd hok (by simp)
    · rw [Except.ok.injEq] at hok
      subst hok
      constructor
      · rw [List.length_flatMap]
        congr 1
        apply List.map_congr_left
        intro f _
        simp
      · intro r hr
        obtain ⟨f, hf, hmap⟩ := List.mem_flatMap.mp hr
        obtain ⟨e, he, heq⟩ := List.mem_map.mp hmap
        have hfsel := List.mem_filter.mp hf
        exact ⟨f, hfsel.1, hfsel.2, by rw [← heq], by rw [← heq]; exact he⟩

/-! ### Query phase of `DeepFace.find` (lines 435-486) -/

/-- One pandas `result_df` of `find`: the surviving `(identity, distance)`
rows and the probe face's own bounding box (the `source_x/y/w/h` columns). -/
structure ResultSet where
  records : List (List Char × ℚ)
  region : Region

instance : IsTotal (List Char × ℚ) fun a b => a.2 ≤ b.2 :=
  ⟨fun a b => le_total a.2 b.2⟩

instance : IsTrans (List Char × ℚ) fun a b => a.2 ≤ b.2 :=
  ⟨fun _ _ _ hab hbc => le_trans hab hbc⟩

instance : DecidableRel fun (a b : List Char × ℚ) => a.2 ≤ b.2 :=
  fun a b => inferInstanceAs (Decidable (a.2 ≤ b.2))

/-- The per-probe-face body of `find` lines 445-486: distance of every
gallery record to the probe face (`dst(source_representation,
target_representation)`), filter `distance <= threshold`, sort ascending by
the distance column, annotate with the probe face's region. -/
def queryOne {Emb : Type} (dist : Emb → Emb → ℚ) (th : ℚ)
    (store : List (List Char × Emb)) (p : Emb × Region) : ResultSet :=
  let withDist := store.map fun rec => (rec.1, dist rec.2 p.1)
  let survivors := withDist.filter fun rec => decide (rec.2 ≤ th)
  { records := List.insertionSort (fun a b => a.2 ≤ b.2) survivors, region := p.2 }

/-- `find`'s query phase: one `result_df` per extracted probe face
(`target_objs` loop, lines 445-486). -/
def findQuery {Emb : Type} (dist : Emb → Emb → ℚ) (th : ℚ)
    (store : List (List Char × Emb)) (probeFaces : List (Emb × Region)) : List ResultSet :=
  probeFaces.map (queryOne dist th store)

/-- C7: `find`'s query phase returns exactly one result set per probe face;
each carries that face's bounding box and holds exactly (a permutation
witnesses "exactly") the gallery records within threshold of that face,
sorted ascending by distance. -/
theorem find_query_per_face {Emb : Type} (dist : Emb → Emb → ℚ) (th : ℚ)
    (store : List (List Char × Emb)) (probeFaces : List (Emb × Region)) :
    (findQuery dist th store probeFaces).length = probeFaces.length ∧
    List.Forall₂ (fun (p : Emb × Region) (rs : ResultSet) =>
        rs.region = p.2 ∧
        List.Sorted (fun a b => a.2 ≤ b.2) rs.records ∧
        rs.records.Perm ((store.map fun rec => (rec.1, dist rec.2 p.1)).filter
          fun rec => decide (rec.2 ≤ th)))
      probeFaces (findQuery dist th store probeFaces) := by
  constructor
  · simp [findQuery]
  · unfold findQuery
    rw [List.forall₂_map_right_iff, List.forall₂_same]
    intro p _
    exact ⟨rfl, List.sorted_insertionSort _ _, List.perm_insertionSort _ _⟩

/-! ### AttributeAnalyzer: `DeepFace.analyze` (DeepFace.py lines 188-325)

The four attribute predictors are external collaborators; their output rows
for a given face enter as opaque values. `Age.findApparentAge` lives outside
the source files, so the age branch carries the apparent-age value opaquely. -/

/-- The predictor outputs for one face: the emotion row, the apparent age
(`Age.findApparentAge(age_predictions)`, opaque), the two-element gender row,
and the race row. -/
structure Predictors where
  emotionRow : List ℚ
  apparentAge : ℚ
  genderRow : ℚ × ℚ
  raceRow : List ℚ

def emotionLabels : List String :=
  ["angry", "disgust", "fear", "happy", "sad", "surprise", "neutral"]

def genderLabels : List String := ["Woman", "Man"]

def raceLabels : List String :=
  ["asian", "indian", "black", "white", "middle eastern", "latino hispanic"]

/-- Python `max(l)` as a left fold (helper for `np.argmax`). -/
def listMaxD : List ℚ → ℚ
  | [] => 0
  | a :: rest => rest.foldl max a

/-- `np.argmax(l)`: index of the first occurrence of the maximum. -/
def listArgmax : List ℚ → Nat
  | [] => 0
  | [_] => 0
  | a :: b :: rest => if listMaxD (b :: rest) ≤ a then 0 else listArgmax (b :: rest) + 1

/-- The emotion/race pattern (lines 277-289 and 306-317): percentages
`100 * p_i / sum(p)` per label, dominant label = `labels[np.argmax(p)]`. -/
def distributionResult (labels : List String) (preds : List ℚ) :
    List (String × ℚ) × String :=
  ((labels.zip preds).map fun lp => (lp.1, 100 * lp.2 / preds.sum),
   labels.getD (listArgmax preds) "")

/-- The gender branch (lines 296-304): `100 * gender_predictions[i]` per
label — with no division by the row sum — and dominant =
`gender_labels[np.argmax(gender_predictions)]`. -/
def genderResult (row : ℚ × ℚ) : List (String × ℚ) × String :=
  ([("Woman", 100 * row.1), ("Man", 100 * row.2)],
   genderLabels.getD (listArgmax [row.1, row.2]) "")

/-- Python `int()` truncates toward zero (line 294). -/
def truncInt (q : ℚ) : Int := if 0 ≤ q then ⌊q⌋ else ⌈q⌉

/-- The per-face `obj` dict of `analyze`: attribute keys are present only
when the corresponding action ran, and `region` is set inside the actions
loop (so it is absent when `actions` is empty). -/
structure AnalysisObj where
  emotion : Option (List (String × ℚ) × String)
  age : Option Int
  gender : Option (List (String × ℚ) × String)
  race : Option (List (String × ℚ) × String)
  region : Option Region
deriving DecidableEq, Repr

def emptyObj : AnalysisObj := ⟨none, none, none, none, none⟩

/-- One iteration of the `for index in pbar` actions loop (lines 268-321):
dispatch on the action name (unrecognized names fall through with no effect)
and then unconditionally set `obj["region"]`. -/
def applyAction (preds : Predictors) (region : Region) (obj : AnalysisObj)
    (action : String) : AnalysisObj :=
  let obj' :=
    if action = "emotion" then
      { obj with emotion := some (distributionResult emotionLabels preds.emotionRow) }
    else if action = "age" then
      { obj with age := some (truncInt preds.apparentAge) }
    else if action = "gender" then
      { obj with gender := some (genderResult preds.genderRow) }
    else if action = "race" then
      { obj with race := some (distributionResult raceLabels preds.raceRow) }
    else obj
  { obj' with region := some region }

/-- The whole actions loop for one face. -/
def analyzeFace (actions : List String) (preds : Predictors) (region : Region) :
    AnalysisObj :=
  actions.foldl (applyAction preds region) emptyObj

/-- `DeepFace.analyze` lines 259-325 over the extracted faces (each with its
predictors' outputs): the guard `img_content.shape[0] > 0 and
img_content.shape[1] > 0` tests the batched tensor whose shape is
`(1, H, W, 3)`, so it reduces to `0 < H`. -/
def analyze (actions : List String) (faces : List (ExtractedFace × Predictors)) :
    List AnalysisObj :=
  (faces.filter fun fc => decide (0 < fc.1.tensor.h)).map
    fun fc => analyzeFace actions fc.2 fc.1.region

/-- C8: on an image with exactly one (non-degenerate) detected face,
`analyze` with `actions = ["gender"]` returns exactly one result; its gender
percentages over `{Woman, Man}` sum to 100 when the predictor row is a
probability distribution, its dominant label is the argmax of the raw row
(ties to `Woman`), and the emotion/age/race keys are all absent. -/
theorem analyze_gender_only (img : CropShape) (f : FaceObj) (preds : Predictors)
    (p0 p1 : ℚ) (hh : 0 < f.crop.h) (hw : 0 < f.crop.w)
    (hrow : preds.genderRow = (p0, p1)) (hsum : p0 + p1 = 1) :
    ∃ e, extract_faces img (224, 224) false [f] true = .ok [e] ∧
      analyze ["gender"] [(e, preds)] =
        [{ emotion := none, age := none, gender := some (genderResult (p0, p1)),
           race := none, region := some e.region }] ∧
      ((genderResult (p0, p1)).1.map Prod.snd).sum = 100 ∧
      (genderResult (p0, p1)).2 = (if p1 ≤ p0 then "Woman" else "Man") := by
  refine ⟨⟨⟨224, 224⟩, f.region, f.confidence⟩,
    (extract_faces_exact_shape img (224, 224) f hh hw).1, ?_, ?_, ?_⟩
  · simp [analyze, analyzeFace, applyAction, emptyObj, hrow]
  · simp only [genderResult, List.map, List.sum_cons, List.sum_nil]
    linarith
  · by_cases hc : p1 ≤ p0
    · simp [genderResult, listArgmax, listMaxD, genderLabels, hc]
    · simp [genderResult, listArgmax, listMaxD, genderLabels, hc]

/-- `analyze ["gender"]` on one extracted face with gender row (3/4, 1/4),
witnessing `analyze_gender_only`. -/
theorem analyze_gender_only_witness :
    ∃ e, extract_faces ⟨10, 12⟩ (224, 224) false [⟨⟨5, 7⟩, ⟨1, 2, 3, 4⟩, 0⟩] true =
        .ok [e] ∧
      analyze ["gender"] [(e, ⟨[], 0, ((3 : ℚ)/4, (1 : ℚ)/4), []⟩)] =
        [{ emotion := none, age := none,
           gender := some (genderResult ((3 : ℚ)/4, (1 : ℚ)/4)),
           race := none, region := some e.region }] ∧
      ((genderResult ((3 : ℚ)/4, (1 : ℚ)/4)).1.map Prod.snd).sum = 100 ∧
      (genderResult ((3 : ℚ)/4, (1 : ℚ)/4)).2 =
        (if (1 : ℚ)/4 ≤ (3 : ℚ)/4 then "Woman" else "Man") :=
  analyze_gender_only ⟨10, 12⟩ ⟨⟨5, 7⟩, ⟨1, 2, 3, 4⟩, 0⟩
    ⟨[], 0, ((3 : ℚ)/4, (1 : ℚ)/4), []⟩ ((3 : ℚ)/4) ((1 : ℚ)/4)
    (by norm_num) (by norm_num) rfl (by norm_num)

/-! ### ImageLoader aliasing: `functions.load_image` (lines 57-85) and
`functions.normalize_input` (lines 186-231)

To state aliasing, arrays live in a heap (list of pixel buffers) addressed by
reference; a pixel is an RGB triple so the per-channel operations of
`normalize_input` can act on channels. -/

/-- One pixel: the three channel values. -/
abbrev Pixel := ℚ × ℚ × ℚ

/-- One numpy array's contents: its pixels, flattened. -/
abbrev Pixels := List Pixel

/-- The set of live arrays; a reference is an index, allocation appends. -/
abbrev Heap := List Pixels

/-- `img` as passed to `load_image`: an in-memory numpy buffer (identified by
its reference), a `data:image/` base64 URI, an `http` URL, or a filesystem
path — in the code's disambiguation order. -/
inductive ImageInput where
  | buffer (ref : Nat)
  | dataUri (s : List Char)
  | url (s : List Char)
  | path (p : List Char)

/-- `raise ValueError(f"Confirm that {img} exists")` (line 81). -/
inductive LoadError where
  | notFound
deriving DecidableEq, Repr

/-- `functions.load_image`: a numpy input is returned as-is — the very same
array object, no copy (line 62 sets `exact_image`, line 85 `return img`);
the other three branches decode into a freshly allocated array (`decoded` is
the decode result, opaque here); a missing path raises. -/
def load_image (h : Heap) (inp : ImageInput) (fileExists : Bool) (decoded : Pixels) :
    Except LoadError (Heap × Nat) :=
  match inp with
  | .buffer r => .ok (h, r)
  | .dataUri _ => .ok (h ++ [decoded], h.length)
  | .url _ => .ok (h ++ [decoded], h.length)
  | .path _ => if fileExists then .ok (h ++ [decoded], h.length) else .error .notFound

/-- Map a scalar operation over every channel of every pixel (numpy
broadcasting of `img *= 255` and friends). -/
def pmap (fn : ℚ → ℚ) (p : Pixels) : Pixels :=
  p.map fun v => (fn v.1, fn v.2.1, fn v.2.2)

/-- `functions.normalize_input` on the array at reference `r`: `base` returns
the array untouched; every other recognized scheme first executes the
in-place `img *= 255` (mutating the array at `r`), then `raw` stops there,
`Facenet` rebinds `img = (img - mean) / std` to a fresh array (its value
depends on the out-of-scope `np` mean/std, hence the opaque
`facenetResult`), and `Facenet2018` / `VGGFace` / `VGGFace2` / `ArcFace`
apply further in-place arithmetic at `r`; an unknown scheme raises
`ValueError` (`none`). Returns the heap and the reference of the returned
array. -/
def normalize_input (h : Heap) (r : Nat) (norm : String) (facenetResult : Pixels) :
    Option (Heap × Nat) :=
  if norm = "base" then some (h, r)
  else
    let h1 := h.set r (pmap (fun v => v * 255) (h.getD r []))
    if norm = "raw" then some (h1, r)
    else if norm = "Facenet" then some (h1 ++ [facenetResult], h1.length)
    else if norm = "Facenet2018" then
      some (h1.set r (pmap (fun v => v / 127.5 - 1) (h1.getD r [])), r)
    else if norm = "VGGFace" then
      some (h1.set r ((h1.getD r []).map fun v =>
        (v.1 - 93.5940, v.2.1 - 104.7624, v.2.2 - 129.1863)), r)
    else if norm = "VGGFace2" then
      some (h1.set r ((h1.getD r []).map fun v =>
        (v.1 - 91.4953, v.2.1 - 103.8827, v.2.2 - 131.0912)), r)
    else if norm = "ArcFace" then
      some (h1.set r (pmap (fun v => (v - 127.5) / 128) (h1.getD r [])), r)
    else none

/-- The skip path of `DeepFace.represent` (line 533): `img = img_path.copy()`
— a fresh array with the same contents. -/
def representSkipCopy (h : Heap) (r : Nat) : Heap × Nat :=
  (h ++ [h.getD r []], h.length)

lemma getD_set_of_ne (l : Heap) (i j : Nat) (v : Pixels) (hij : i ≠ j) :
    (l.set i v).getD j [] = l.getD j [] := by
  simp [List.getD_eq_getElem?_getD, List.getElem?_set_ne hij]

lemma getD_append_left (l : Heap) (x : Pixels) (j : Nat) (hj : j < l.length) :
    (l ++ [x]).getD j [] = l.getD j [] :=
  List.getD_append _ _ _ _ hj

/-- The claim's "pass through as a copy" is false of the code: `load_image`
on a buffer returns the same reference, and in-place normalization through
that alias mutates the caller's buffer (here `raw`, whose only effect is the
shared `img *= 255`). -/
theorem load_image_no_copy_counterexample :
    load_image [[((1 : ℚ), 0, 0)]] (.buffer 0) true [] = .ok ([[((1 : ℚ), 0, 0)]], 0) ∧
    normalize_input [[((1 : ℚ), 0, 0)]] 0 "raw" [] =
      some ([[((255 : ℚ), 0, 0)]], 0) ∧
    ([[((255 : ℚ), 0, 0)]] : Heap).getD 0 [] ≠ ([[((1 : ℚ), 0, 0)]] : Heap).getD 0 [] := by
  refine ⟨rfl, ?_, by norm_num⟩
  simp only [normalize_input]
  rw [if_neg (by decide), if_pos trivial]
  norm_num [pmap, List.set]

/-- C9 (amended): `load_image` passes an in-memory buffer through unchanged
and aliased — the same reference, no copy, no allocation; the caller's
buffer is nevertheless not mutated on `represent`'s skip path, because that
path copies the buffer (`img_path.copy()`) before the in-place
`normalize_input`. -/
theorem load_image_alias_skip_copy (h : Heap) (r : Nat) (norm : String)
    (fv fromFile : Pixels) (fileExists : Bool) (hr : r < h.length) :
    load_image h (.buffer r) fileExists fromFile = .ok (h, r) ∧
    ∀ h' r', normalize_input (representSkipCopy h r).1 (representSkipCopy h r).2 norm fv
        = some (h', r') →
      h'.getD r [] = h.getD r [] := by
  refine ⟨rfl, ?_⟩
  intro h' r' heq
  have hne : h.length ≠ r := by omega
  have hbase : (h ++ [h.getD r []]).getD r [] = h.getD r [] :=
    getD_append_left h _ r hr
  simp only [normalize_input, representSkipCopy] at heq
  by_cases h1 : norm = "base"
  · rw [if_pos h1, Option.some.injEq, Prod.mk.injEq] at heq
    rw [← heq.1]
    exact hbase
  · rw [if_neg h1] at heq
    by_cases h2 : norm = "raw"
    · rw [if_pos h2, Option.some.injEq, Prod.mk.injEq] at heq
      rw [← heq.1, getD_set_of_ne _ _ _ _ hne]
      exact hbase
    · rw [if_neg h2] at heq
      by_cases h3 : norm = "Facenet"
      · rw [if_pos h3, Option.some.injEq, Prod.mk.injEq] at heq
        rw [← heq.1,
          getD_append_left _ _ r (by simp [List.length_set]; omega),
          getD_set_of_ne _ _ _ _ hne]
        exact hbase
      · rw [if_neg h3] at heq
        by_cases h4 : norm = "Facenet2018"
        · rw [if_pos h4, Option.some.injEq, Prod.mk.injEq] at heq
          rw [← heq.1, getD_set_of_ne _ _ _ _ hne,
            getD_set_of_ne _ _ _ _ hne]
          exact hbase
        · rw [if_neg h4] at heq
          by_cases h5 : norm = "VGGFace"
          · rw [if_pos h5, Option.some.injEq, Prod.mk.injEq] at heq
            rw [← heq.1, getD_set_of_ne _ _ _ _ hne,
              getD_set_of_ne _ _ _ _ hne]
            exact hbase
          · rw [if_neg h5] at heq
            by_cases h6 : norm = "VGGFace2"
            · rw [if_pos h6, Option.some.injEq, Prod.mk.injEq] at heq
              rw [← heq.1, getD_set_of_ne _ _ _ _ hne,
                getD_set_of_ne _ _ _ _ hne]
              exact hbase
            · rw [if_neg h6] at heq
              by_cases h7 : norm = "ArcFace"
              · rw [if_pos h7, Option.some.injEq, Prod.mk.injEq] at heq
                rw [← heq.1, getD_set_of_ne _ _ _ _ hne,
                  getD_set_of_ne _ _ _ _ hne]
                exact hbase
              · rw [if_neg h7] at heq
                exact absurd heq (by simp)

/-- The skip-path copy protects the caller's buffer under `Facenet2018`
normalization, witnessing `load_image_alias_skip_copy`. -/
theorem load_image_alias_skip_copy_witness :
    load_image [[((1 : ℚ), 0, 0)], []] (.buffer 0) true [] =
      .ok ([[((1 : ℚ), 0, 0)], []], 0) ∧
    ∀ h' r', normalize_input (representSkipCopy [[((1 : ℚ), 0, 0)], []] 0).1
        (representSkipCopy [[((1 : ℚ), 0, 0)], []] 0).2 "Facenet2018" [] = some (h', r') →
      h'.getD 0 [] = ([[((1 : ℚ), 0, 0)], []] : Heap).getD 0 [] :=
  load_image_alias_skip_copy [[((1 : ℚ), 0, 0)], []] 0 "Facenet2018" [] [] true
    (by norm_num)
